import Mathlib

/-!
Verification of the playback-timeline engine of DearBagPlayer
(`src/dearbagplayer/timeline.py`).

The engine has two clock kinds:
  * `Timeline` — a continuous clock over `[start, end]`;
  * `TimelineWithSeries` — an indexed clock backed by a timestamp series.

Real timestamps are modelled as rationals (`ℚ`, exact arithmetic).
Python operations that may raise are modelled with `Except TimelineError`;
all other operations are pure state transformers.
-/

/-- Errors the Python code can raise: `ValueError` from the two validators,
`AttributeError` from assigning to a property with no setter, and
`IndexError` from indexing an empty series. -/
inductive TimelineError where
  | invalidDuration
  | invalidEndTime
  | attributeError
  | indexError
  deriving DecidableEq, Repr

/-- State of the continuous clock: the slots
`_start_time, _end_time, _duration, _head, _direction, _loop_enabled`
of Python class `Timeline`. -/
structure Timeline where
  startTime : ℚ
  endTime : ℚ
  duration : ℚ
  head : ℚ
  direction : ℚ
  loopEnabled : Bool
  deriving DecidableEq, Repr

/-- `Timeline.validDuration`: raises `ValueError` iff the value is negative. -/
def Timeline.validDuration (value : ℚ) : Except TimelineError Unit :=
  if value < 0 then .error .invalidDuration else .ok ()

/-- `Timeline.validEndTime`: raises `ValueError` iff `value <= self._start_time`. -/
def Timeline.validEndTime (t : Timeline) (value : ℚ) : Except TimelineError Unit :=
  if value ≤ t.startTime then .error .invalidEndTime else .ok ()

/-- `Timeline.__init__(start_time, duration, loop_enabled)`. -/
def Timeline.init (startTime duration : ℚ) (loopEnabled : Bool) :
    Except TimelineError Timeline :=
  match Timeline.validDuration duration with
  | .error e => .error e
  | .ok _ =>
    .ok { startTime := startTime
          duration := duration
          endTime := startTime + duration
          head := startTime
          direction := 0
          loopEnabled := loopEnabled }

/-- The `start` setter: reassigns `_start_time`, recomputes `_end_time`. -/
def Timeline.setStart (t : Timeline) (value : ℚ) : Timeline :=
  { t with startTime := value, endTime := value + t.duration }

/-- The `end` setter: validates, reassigns `_end_time`, recomputes `_duration`. -/
def Timeline.setEnd (t : Timeline) (value : ℚ) : Except TimelineError Timeline :=
  match t.validEndTime value with
  | .error e => .error e
  | .ok _ => .ok { t with endTime := value, duration := value - t.startTime }

/-- The `duration` setter: validates, reassigns `_duration`, recomputes `_end_time`. -/
def Timeline.setDuration (t : Timeline) (value : ℚ) : Except TimelineError Timeline :=
  match Timeline.validDuration value with
  | .error e => .error e
  | .ok _ => .ok { t with duration := value, endTime := t.startTime + value }

/-- `Timeline.loop()`: toggles looped playback. -/
def Timeline.loop (t : Timeline) : Timeline :=
  { t with loopEnabled := !t.loopEnabled }

/-- `Timeline.now()`: returns `_head`. -/
def Timeline.now (t : Timeline) : ℚ := t.head

/-- `Timeline.play(direction)`: sets `_direction`. -/
def Timeline.play (t : Timeline) (direction : ℚ) : Timeline :=
  { t with direction := direction }

/-- `Timeline.pause()`: sets `_direction = 0`. -/
def Timeline.pause (t : Timeline) : Timeline :=
  { t with direction := 0 }

/-- `Timeline.stop()`: pauses, then resets `_head = _start_time`. -/
def Timeline.stop (t : Timeline) : Timeline :=
  { t.pause with head := t.startTime }

/-- `Timeline.set(timestamp)`: clamps into `[_start_time, _end_time]`. -/
def Timeline.set (t : Timeline) (timestamp : ℚ) : Timeline :=
  { t with head := max t.startTime (min timestamp t.endTime) }

/-- `Timeline.render(delta_t)`: advances `_head` by `delta_t * _direction`,
then applies the boundary policy (wrap by one duration when looping,
otherwise clamp and `stop()`). -/
def Timeline.render (t : Timeline) (delta_t : ℚ) : Timeline :=
  if t.direction = 0 then t
  else
    let h := t.head + delta_t * t.direction
    if h < t.startTime then
      if t.loopEnabled then { t with head := h + t.duration }
      else Timeline.stop { t with head := t.startTime }
    else if h > t.endTime then
      if t.loopEnabled then { t with head := h - t.duration }
      else Timeline.stop { t with head := t.duration }
    else { t with head := h }

/-- State of the indexed clock: the inherited slots plus `_series, _index`
of Python class `TimelineWithSeries`.  `index` is an integer because
`getIndex` can return `-1`. -/
structure TimelineWithSeries where
  series : List ℚ
  index : ℤ
  startTime : ℚ
  endTime : ℚ
  duration : ℚ
  head : ℚ
  direction : ℚ
  loopEnabled : Bool
  deriving DecidableEq, Repr

/-- One step of CPython `bisect.bisect_right`'s loop
`while lo < hi: mid = (lo+hi)//2; if x < a[mid]: hi = mid else lo = mid+1`,
run with explicit fuel (the fuel is an upper bound on `hi - lo`, so it
never runs out on the calls we make). -/
def bisectAux (a : List ℚ) (x : ℚ) : ℕ → ℕ → ℕ → ℕ
  | 0, lo, _ => lo
  | fuel + 1, lo, hi =>
    if lo < hi then
      let mid := (lo + hi) / 2
      if x < a.getD mid 0 then bisectAux a x fuel lo mid
      else bisectAux a x fuel (mid + 1) hi
    else lo

/-- `bisect.bisect(series, x)` = `bisect_right` over the whole list. -/
def bisectRight (a : List ℚ) (x : ℚ) : ℕ :=
  bisectAux a x a.length 0 a.length

/-- `TimelineWithSeries.__init__(series, loop_enabled)`: IndexError on an
empty series (Python indexes `series[0]`), then the base init with
`start = series[0]`, `duration = series[-1] - series[0]`. -/
def TimelineWithSeries.init (series : List ℚ) (loopEnabled : Bool) :
    Except TimelineError TimelineWithSeries :=
  match series with
  | [] => .error .indexError
  | a :: rest =>
    let duration := (a :: rest).getLastD 0 - a
    if duration < 0 then .error .invalidDuration
    else .ok { series := a :: rest
               index := 0
               startTime := a
               endTime := a + duration
               duration := duration
               head := a
               direction := 0
               loopEnabled := loopEnabled }

/-- The overriding `start` setter: shifts every series element by
`value - series[0]`, then resyncs `_start_time`/`_end_time` from the
shifted series' endpoints. -/
def TimelineWithSeries.setStart (t : TimelineWithSeries) (value : ℚ) :
    TimelineWithSeries :=
  let offset := value - t.series.headD 0
  let series := t.series.map (· + offset)
  { t with series := series
           startTime := series.headD 0
           endTime := series.getLastD 0 }

/-- The overriding `end` setter: shifts every series element by
`value - series[-1]`, then resyncs the endpoints. -/
def TimelineWithSeries.setEnd (t : TimelineWithSeries) (value : ℚ) :
    TimelineWithSeries :=
  let offset := value - t.series.getLastD 0
  let series := t.series.map (· + offset)
  { t with series := series
           startTime := series.headD 0
           endTime := series.getLastD 0 }

/-- `TimelineWithSeries.duration` is overridden as a property with no
setter, so a Python assignment `timeline.duration = v` raises
`AttributeError` before touching any state (the class docstring tests
exactly this). -/
def TimelineWithSeries.setDuration (_t : TimelineWithSeries) (_value : ℚ) :
    Except TimelineError TimelineWithSeries :=
  .error .attributeError

/-- The `series` setter: replaces the backing sequence, resets `_index = 0`,
recomputes `_start_time/_end_time/_duration` from the new endpoints. -/
def TimelineWithSeries.setSeries (t : TimelineWithSeries) (series : List ℚ) :
    TimelineWithSeries :=
  { t with series := series
           index := 0
           startTime := series.headD 0
           endTime := series.getLastD 0
           duration := series.getLastD 0 - series.headD 0 }

/-- `TimelineWithSeries.getIndex(timestamp)`:
`bisect.bisect(series, timestamp) - 1`. -/
def TimelineWithSeries.getIndex (t : TimelineWithSeries) (timestamp : ℚ) : ℤ :=
  (bisectRight t.series timestamp : ℤ) - 1

/-- Inherited `loop()`. -/
def TimelineWithSeries.loop (t : TimelineWithSeries) : TimelineWithSeries :=
  { t with loopEnabled := !t.loopEnabled }

/-- Inherited `now()`. -/
def TimelineWithSeries.now (t : TimelineWithSeries) : ℚ := t.head

/-- Inherited `play(direction)`. -/
def TimelineWithSeries.play (t : TimelineWithSeries) (direction : ℚ) :
    TimelineWithSeries :=
  { t with direction := direction }

/-- Inherited `pause()`. -/
def TimelineWithSeries.pause (t : TimelineWithSeries) : TimelineWithSeries :=
  { t with direction := 0 }

/-- Inherited `stop()`: pause, then `_head = _start_time`. -/
def TimelineWithSeries.stop (t : TimelineWithSeries) : TimelineWithSeries :=
  { t.pause with head := t.startTime }

/-- The overriding `set(timestamp)`: recomputes `_index = getIndex(timestamp)`
and assigns `_head = timestamp` directly (the clamped assignment of the base
class is replaced; the clamping line is commented out in the source). -/
def TimelineWithSeries.set (t : TimelineWithSeries) (timestamp : ℚ) :
    TimelineWithSeries :=
  { t with index := t.getIndex timestamp, head := timestamp }

/-- The overriding `render(delta_t)`: the base boundary algorithm, plus
`_index` maintenance on wrap (recomputed via `getIndex`) and on
non-looping stop (`0` backward, `len(series) - 1` forward). -/
def TimelineWithSeries.render (t : TimelineWithSeries) (delta_t : ℚ) :
    TimelineWithSeries :=
  if t.direction = 0 then t
  else
    let h := t.head + delta_t * t.direction
    if h < t.startTime then
      if t.loopEnabled then
        let t' := { t with head := h + t.duration }
        { t' with index := t'.getIndex t'.head }
      else TimelineWithSeries.stop { t with head := t.startTime, index := 0 }
    else if h > t.endTime then
      if t.loopEnabled then
        let t' := { t with head := h - t.duration }
        { t' with index := t'.getIndex t'.head }
      else TimelineWithSeries.stop
        { t with head := t.duration, index := (t.series.length : ℤ) - 1 }
    else { t with head := h }

/-! ### Helper lemmas about the binary search -/

/-- A `≤`-sorted list is monotone in `getD` lookups below its length. -/
lemma sorted_getD_mono (a : List ℚ) (ha : a.Sorted (· ≤ ·)) :
    ∀ i j, i ≤ j → j < a.length → a.getD i 0 ≤ a.getD j 0 := by
  intro i j hij hj
  have hi : i < a.length := lt_of_le_of_lt (by omega) hj
  rcases eq_or_lt_of_le hij with rfl | hlt
  · exact le_refl _
  · rw [List.getD_eq_getElem _ _ hi, List.getD_eq_getElem _ _ hj]
    exact List.pairwise_iff_getElem.mp ha i j hi hj hlt

/-- Loop invariant of the `bisect_right` search: if everything left of `lo`
is `≤ x` and everything from `hi` on is `> x`, the returned split point
extends both properties to the whole list. -/
lemma bisectAux_spec (a : List ℚ) (x : ℚ)
    (hmono : ∀ i j, i ≤ j → j < a.length → a.getD i 0 ≤ a.getD j 0) :
    ∀ fuel lo hi, lo ≤ hi → hi - lo ≤ fuel → hi ≤ a.length →
      (∀ i, i < lo → a.getD i 0 ≤ x) →
      (∀ i, hi ≤ i → i < a.length → x < a.getD i 0) →
      lo ≤ bisectAux a x fuel lo hi ∧ bisectAux a x fuel lo hi ≤ hi ∧
        (∀ i, i < bisectAux a x fuel lo hi → a.getD i 0 ≤ x) ∧
        (∀ i, bisectAux a x fuel lo hi ≤ i → i < a.length →
          x < a.getD i 0) := by
  intro fuel
  induction fuel with
  | zero =>
    intro lo hi hlohi hfuel _ h1 h2
    have heq : hi = lo := by omega
    subst heq
    exact ⟨le_refl _, le_refl _, h1, h2⟩
  | succ fuel ih =>
    intro lo hi hlohi hfuel hhi h1 h2
    have hunfold : bisectAux a x (fuel + 1) lo hi =
        if lo < hi then
          if x < a.getD ((lo + hi) / 2) 0 then
            bisectAux a x fuel lo ((lo + hi) / 2)
          else bisectAux a x fuel ((lo + hi) / 2 + 1) hi
        else lo := rfl
    by_cases hlt : lo < hi
    · have hmid1 : lo ≤ (lo + hi) / 2 := by omega
      have hmid2 : (lo + hi) / 2 < hi := by omega
      by_cases hx : x < a.getD ((lo + hi) / 2) 0
      · have h2' : ∀ i, (lo + hi) / 2 ≤ i → i < a.length → x < a.getD i 0 := by
          intro i hmi hil
          exact lt_of_lt_of_le hx (hmono _ i hmi hil)
        have hrec := ih lo ((lo + hi) / 2) hmid1 (by omega) (by omega) h1 h2'
        rw [hunfold, if_pos hlt, if_pos hx]
        exact ⟨hrec.1, le_trans hrec.2.1 (le_of_lt hmid2), hrec.2.2⟩
      · have hx' : a.getD ((lo + hi) / 2) 0 ≤ x := le_of_not_lt hx
        have h1' : ∀ i, i < (lo + hi) / 2 + 1 → a.getD i 0 ≤ x := by
          intro i hi'
          exact le_trans (hmono i _ (by omega) (by omega)) hx'
        have hrec := ih ((lo + hi) / 2 + 1) hi (by omega) (by omega) hhi h1' h2
        rw [hunfold, if_pos hlt, if_neg hx]
        exact ⟨by omega, hrec.2.1, hrec.2.2⟩
    · rw [hunfold, if_neg hlt]
      exact ⟨le_refl _, hlohi, h1, fun i hri hil => h2 i (by omega) hil⟩

/-- Specification of `bisect.bisect_right` on a sorted list: the result `r`
splits the list into a prefix of elements `≤ x` and a suffix of elements
`> x`. -/
lemma bisectRight_spec (a : List ℚ) (x : ℚ) (ha : a.Sorted (· ≤ ·)) :
    bisectRight a x ≤ a.length ∧
      (∀ i, i < bisectRight a x → a.getD i 0 ≤ x) ∧
      (∀ i, bisectRight a x ≤ i → i < a.length → x < a.getD i 0) := by
  have h := bisectAux_spec a x (sorted_getD_mono a ha) a.length 0 a.length
    (Nat.zero_le _) (by omega) (le_refl _)
    (fun i hi => absurd hi (Nat.not_lt_zero i))
    (fun i hge hil => absurd hil (by omega))
  exact ⟨h.2.1, h.2.2.1, h.2.2.2⟩

/-- Pinning lemma: to evaluate `bisect_right` on a sorted list it is enough
to check the element just below and just at the claimed split point. -/
lemma bisectRight_eq_of (a : List ℚ) (x : ℚ) (ha : a.Sorted (· ≤ ·))
    (n : ℕ) (hn : n ≤ a.length)
    (h1 : ∀ i, i < n → a.getD i 0 ≤ x)
    (h2 : n < a.length → x < a.getD n 0) :
    bisectRight a x = n := by
  obtain ⟨hle, hA, hB⟩ := bisectRight_spec a x ha
  by_contra hne
  rcases Nat.lt_or_ge (bisectRight a x) n with h | h
  · exact absurd (hB _ (le_refl _) (lt_of_lt_of_le h hn))
      (not_lt.2 (h1 _ h))
  · have hnr : n < bisectRight a x := lt_of_le_of_ne h (Ne.symm hne)
    exact absurd (hA n hnr) (not_le.2 (h2 (lt_of_lt_of_le hnr hle)))

/-! ### Concrete states used by the examples in the spec -/

/-- The ten-sample series `list(range(10))` from the class docstring. -/
def series10 : List ℚ := [0, 1, 2, 3, 4, 5, 6, 7, 8, 9]

/-- The indexed clock built from `series10`. -/
def tl10 : TimelineWithSeries :=
  { series := series10, index := 0, startTime := 0, endTime := 9, duration := 9
    head := 0, direction := 0, loopEnabled := true }

lemma tl10_init : TimelineWithSeries.init series10 true = .ok tl10 := by
  norm_num [TimelineWithSeries.init, series10, tl10]

lemma series10_sorted : series10.Sorted (· ≤ ·) := by
  simp only [series10, List.sorted_cons, List.mem_cons]
  norm_num

/-- Continuous clock at `start=0, end=10, head=9, direction=1`, no looping. -/
def clockFwdNoLoop : Timeline :=
  { startTime := 0, endTime := 10, duration := 10, head := 9, direction := 1
    loopEnabled := false }

/-- The same clock with looping enabled. -/
def clockFwdLoop : Timeline :=
  { clockFwdNoLoop with loopEnabled := true }

/-- Indexed clock used to witness C10's forward non-looping case. -/
def tl10Fwd : TimelineWithSeries :=
  { tl10 with direction := 1, loopEnabled := false }

/-- The auxiliary invariant the indexed clock maintains: the series is
non-empty and authoritative for the bounds, and `end - start == duration`. -/
def TimelineWithSeries.wellFormed (t : TimelineWithSeries) : Prop :=
  t.series ≠ [] ∧ t.startTime = t.series.headD 0 ∧
  t.endTime = t.series.getLastD 0 ∧ t.endTime - t.startTime = t.duration

/-- The head-in-window invariant for the continuous clock. -/
def Timeline.headInRange (t : Timeline) : Prop :=
  t.startTime ≤ t.head ∧ t.head ≤ t.endTime

/-- The head-in-window invariant for the indexed clock. -/
def TimelineWithSeries.headInRange (t : TimelineWithSeries) : Prop :=
  t.startTime ≤ t.head ∧ t.head ≤ t.endTime

/-- Fresh continuous clock over `[0, 10]` (the result of `Timeline(0, 10)`). -/
def clockStart10 : Timeline :=
  { startTime := 0, endTime := 10, duration := 10, head := 0, direction := 0
    loopEnabled := true }

/-! ### C1 -/

/-- C1 counterexample: with `start=0, end=10, loop=False, head=9, direction=1`,
`render(2)` does NOT leave `head == 10`: the forward branch assigns
`head = duration` but then calls `stop()`, which overwrites `head = start = 0`. -/
theorem c1_cex_render_head_not_ten :
    ¬ ((clockFwdNoLoop.render 2).head = 10 ∧
       (clockFwdNoLoop.render 2).direction = 0) := by
  intro h
  have := h.1
  norm_num [Timeline.render, Timeline.stop, Timeline.pause, clockFwdNoLoop] at this

/-- C1 (amended): with `start=0, end=10, loop=False, head=9, direction=1`,
`render(2)` ends with `head == 0` (the trailing `stop()` overwrites the
forward branch's `head = duration` assignment with `start`), and
`direction == 0`. -/
theorem c1_nonloop_forward_render_stops :
    (clockFwdNoLoop.render 2).head = 0 ∧
    (clockFwdNoLoop.render 2).head = clockFwdNoLoop.startTime ∧
    (clockFwdNoLoop.render 2).direction = 0 := by
  norm_num [Timeline.render, Timeline.stop, Timeline.pause, clockFwdNoLoop]

/-! ### C8 -/

/-- C8: continuous-clock construction fails with the duration error exactly
when `duration < 0`; otherwise it succeeds with `start` as given,
`end = start + duration`, `head = start`, `direction = 0`.  The `duration`
setter obeys the same raises-iff-negative condition. -/
theorem c8_init_duration_validation :
    (∀ (s d : ℚ) (l : Bool), d < 0 →
      Timeline.init s d l = .error .invalidDuration) ∧
    (∀ (s d : ℚ) (l : Bool), 0 ≤ d →
      Timeline.init s d l =
        .ok { startTime := s, endTime := s + d, duration := d, head := s,
              direction := 0, loopEnabled := l }) ∧
    (∀ (t : Timeline) (v : ℚ), v < 0 →
      t.setDuration v = .error .invalidDuration) ∧
    (∀ (t : Timeline) (v : ℚ), 0 ≤ v →
      t.setDuration v =
        .ok { t with duration := v, endTime := t.startTime + v }) := by
  refine ⟨?_, ?_, ?_, ?_⟩
  · intro s d l h
    simp [Timeline.init, Timeline.validDuration, h]
  · intro s d l h
    simp [Timeline.init, Timeline.validDuration, not_lt.2 h]
  · intro t v h
    simp [Timeline.setDuration, Timeline.validDuration, h]
  · intro t v h
    simp [Timeline.setDuration, Timeline.validDuration, not_lt.2 h]

/-- Witness for C8 at the spec's concrete inputs: `duration = -0.1` raises,
`duration = 10` succeeds. -/
theorem c8_witness :
    ((-1/10 : ℚ) < 0 ∧
      Timeline.init 0 (-1/10) true = .error .invalidDuration) ∧
    ((0 : ℚ) ≤ 10 ∧
      Timeline.init 0 10 true =
        .ok { startTime := 0, endTime := 0 + 10, duration := 10, head := 0,
              direction := 0, loopEnabled := true }) :=
  ⟨⟨by norm_num, c8_init_duration_validation.1 0 (-1/10) true (by norm_num)⟩,
   ⟨by norm_num, c8_init_duration_validation.2.1 0 10 true (by norm_num)⟩⟩

/-! ### C9 -/

/-- C9: on the indexed clock the `duration` property has no setter, so every
attempt to set it surfaces an `AttributeError` (never a successful no-op);
since only an error is produced, no field of the state is modified. -/
theorem c9_indexed_setDuration_always_fails :
    ∀ (t : TimelineWithSeries) (v : ℚ),
      t.setDuration v = .error .attributeError :=
  fun _ _ => rfl

/-! ### C2 -/

/-- C2 counterexample: on the indexed clock built from `series10`
(`start=0, end=9`), `set(100); now()` returns `100`, not the clamp `9`:
the overriding `set` assigns the timestamp to `head` without clamping. -/
theorem c2_cex_indexed_set_unclamped :
    ¬ ((tl10.set 100).now = max tl10.startTime (min 100 tl10.endTime)) := by
  norm_num [TimelineWithSeries.set, TimelineWithSeries.now, tl10]

/-- C2 (amended): for the continuous clock, `set(t); now()` returns
`max(start, min(t, end))` and `set` never fails; the indexed clock's
overriding `set` stores the timestamp into `head` unclamped (so `now()`
returns `t` itself) and recomputes `index = getIndex(t)`. -/
theorem c2_set_now_roundtrip :
    (∀ (t : Timeline) (ts : ℚ),
      (t.set ts).now = max t.startTime (min ts t.endTime)) ∧
    (∀ (t : TimelineWithSeries) (ts : ℚ),
      (t.set ts).now = ts ∧ (t.set ts).index = t.getIndex ts) :=
  ⟨fun _ _ => rfl, fun _ _ => ⟨rfl, rfl⟩⟩

/-! ### C5 -/

/-- C5: on the indexed clock, assigning `end = v` adds `v - series[-1]` to
every series element (and assigning `start = v` adds `v - series[0]`); the
bounds are then resynced to the shifted series' endpoints and `duration`
is untouched.  In particular `series10` with `end = 5` becomes
`[-4, ..., 5]` with `start == -4`. -/
theorem c5_bound_setters_shift_series :
    (∀ (t : TimelineWithSeries) (v : ℚ),
      (t.setEnd v).series = t.series.map (· + (v - t.series.getLastD 0)) ∧
      (t.setEnd v).startTime = (t.setEnd v).series.headD 0 ∧
      (t.setEnd v).endTime = (t.setEnd v).series.getLastD 0 ∧
      (t.setEnd v).duration = t.duration) ∧
    (∀ (t : TimelineWithSeries) (v : ℚ),
      (t.setStart v).series = t.series.map (· + (v - t.series.headD 0)) ∧
      (t.setStart v).startTime = (t.setStart v).series.headD 0 ∧
      (t.setStart v).endTime = (t.setStart v).series.getLastD 0 ∧
      (t.setStart v).duration = t.duration) ∧
    (tl10.setEnd 5).series = [-4, -3, -2, -1, 0, 1, 2, 3, 4, 5] ∧
    (tl10.setEnd 5).startTime = -4 := by
  refine ⟨fun t v => ⟨rfl, rfl, rfl, rfl⟩, fun t v => ⟨rfl, rfl, rfl, rfl⟩,
    ?_, ?_⟩
  · norm_num [TimelineWithSeries.setEnd, tl10, series10]
  · norm_num [TimelineWithSeries.setEnd, tl10, series10]

/-! ### C6 -/

/-- C6: on a non-empty, non-decreasing series, `getIndex(timestamp)` is the
index of the greatest sample `<= timestamp` (everything at or below the
returned index is `<= timestamp`, everything above is `> timestamp`), and
is `-1` when the timestamp precedes every sample; in particular on
`series10`, `getIndex(4.5) == 4`, `getIndex(-1) == -1`,
`getIndex(9.5) == 9`. -/
theorem c6_getIndex_greatest_le :
    (∀ (t : TimelineWithSeries) (ts : ℚ),
      t.series ≠ [] → t.series.Sorted (· ≤ ·) →
      (t.getIndex ts = -1 ∧
        ∀ i, i < t.series.length → ts < t.series.getD i 0) ∨
      (0 ≤ t.getIndex ts ∧ (t.getIndex ts).toNat < t.series.length ∧
        t.series.getD (t.getIndex ts).toNat 0 ≤ ts ∧
        ∀ i, (t.getIndex ts).toNat < i → i < t.series.length →
          ts < t.series.getD i 0)) ∧
    tl10.getIndex (9/2) = 4 ∧ tl10.getIndex (-1) = -1 ∧
    tl10.getIndex (19/2) = 9 := by
  have e1 : bisectRight series10 (9/2) = 5 := by
    apply bisectRight_eq_of series10 (9/2) series10_sorted 5
    · norm_num [series10]
    · intro i hi
      interval_cases i <;> norm_num [series10]
    · intro _
      norm_num [series10]
  have e2 : bisectRight series10 (-1) = 0 := by
    apply bisectRight_eq_of series10 (-1) series10_sorted 0
    · norm_num [series10]
    · intro i hi
      omega
    · intro _
      norm_num [series10]
  have e3 : bisectRight series10 (19/2) = 10 := by
    apply bisectRight_eq_of series10 (19/2) series10_sorted 10
    · norm_num [series10]
    · intro i hi
      interval_cases i <;> norm_num [series10]
    · intro h
      norm_num [series10] at h
  refine ⟨?_, ?_, ?_, ?_⟩
  · intro t ts _hne hs
    obtain ⟨hle, hA, hB⟩ := bisectRight_spec t.series ts hs
    by_cases h0 : bisectRight t.series ts = 0
    · left
      constructor
      · simp [TimelineWithSeries.getIndex, h0]
      · intro i hil
        exact hB i (by omega) hil
    · right
      have h1 : 1 ≤ bisectRight t.series ts := Nat.one_le_iff_ne_zero.2 h0
      have htn : (t.getIndex ts).toNat = bisectRight t.series ts - 1 := by
        simp only [TimelineWithSeries.getIndex]
        omega
      refine ⟨?_, ?_, ?_, ?_⟩
      · simp only [TimelineWithSeries.getIndex]
        omega
      · omega
      · rw [htn]
        exact hA _ (by omega)
      · intro i hgt hil
        rw [htn] at hgt
        exact hB i (by omega) hil
  · show (bisectRight tl10.series (9/2) : ℤ) - 1 = 4
    have : tl10.series = series10 := rfl
    rw [this, e1]
    norm_num
  · show (bisectRight tl10.series (-1) : ℤ) - 1 = -1
    have : tl10.series = series10 := rfl
    rw [this, e2]
    norm_num
  · show (bisectRight tl10.series (19/2) : ℤ) - 1 = 9
    have : tl10.series = series10 := rfl
    rw [this, e3]
    norm_num

/-- Witness for C6: the general characterization applied to the concrete
sorted series `series10` at timestamp `9/2`. -/
theorem c6_witness :
    tl10.series ≠ [] ∧ tl10.series.Sorted (· ≤ ·) ∧
    ((tl10.getIndex (9/2) = -1 ∧
        ∀ i, i < tl10.series.length → (9/2 : ℚ) < tl10.series.getD i 0) ∨
      (0 ≤ tl10.getIndex (9/2) ∧
        (tl10.getIndex (9/2)).toNat < tl10.series.length ∧
        tl10.series.getD (tl10.getIndex (9/2)).toNat 0 ≤ 9/2 ∧
        ∀ i, (tl10.getIndex (9/2)).toNat < i → i < tl10.series.length →
          (9/2 : ℚ) < tl10.series.getD i 0)) :=
  ⟨by simp [tl10, series10], series10_sorted,
    c6_getIndex_greatest_le.1 tl10 (9/2) (by simp [tl10, series10])
      series10_sorted⟩

/-! ### C7 -/

/-- C7: with `start=0, end=10, loop=True, head=9, direction=1`, `render(2)`
wraps to `head == 1`; in general, when looping is enabled, the head starts
inside `[start, end]`, `end - start == duration`, and the per-tick
displacement satisfies `|delta_t * direction| <= duration`, a single
`render` leaves `head` inside `[start, end]`, moving it by
`delta_t * direction` and correcting an overshoot by exactly one
`duration`. -/
theorem c7_loop_wrap_once :
    ((clockFwdLoop.render 2).head = 1) ∧
    (∀ (t : Timeline) (delta_t : ℚ),
      t.loopEnabled = true →
      t.startTime ≤ t.head → t.head ≤ t.endTime →
      t.endTime - t.startTime = t.duration →
      |delta_t * t.direction| ≤ t.duration →
      t.startTime ≤ (t.render delta_t).head ∧
      (t.render delta_t).head ≤ t.endTime ∧
      ((t.render delta_t).head = t.head + delta_t * t.direction ∨
       (t.render delta_t).head = t.head + delta_t * t.direction + t.duration ∨
       (t.render delta_t).head = t.head + delta_t * t.direction - t.duration)) := by
  constructor
  · norm_num [Timeline.render, clockFwdLoop, clockFwdNoLoop]
  · intro t delta_t hloop h1 h2 heq habs
    have hd := abs_le.1 habs
    by_cases hdir : t.direction = 0
    · simp only [Timeline.render, if_pos hdir]
      refine ⟨h1, h2, Or.inl ?_⟩
      rw [hdir]
      ring
    · simp only [Timeline.render, if_neg hdir, hloop]
      split_ifs with hlt hgt
      · refine ⟨?_, ?_, Or.inr (Or.inl rfl)⟩
        · show t.startTime ≤ t.head + delta_t * t.direction + t.duration
          linarith [hd.1]
        · show t.head + delta_t * t.direction + t.duration ≤ t.endTime
          linarith
      · refine ⟨?_, ?_, Or.inr (Or.inr rfl)⟩
        · show t.startTime ≤ t.head + delta_t * t.direction - t.duration
          linarith
        · show t.head + delta_t * t.direction - t.duration ≤ t.endTime
          linarith [hd.2]
      · refine ⟨?_, ?_, Or.inl rfl⟩
        · show t.startTime ≤ t.head + delta_t * t.direction
          linarith
        · show t.head + delta_t * t.direction ≤ t.endTime
          linarith

/-- Witness for C7: the general wrap statement applied to the concrete
looped clock with `head=9, direction=1, delta_t=2`. -/
theorem c7_witness :
    clockFwdLoop.startTime ≤ (clockFwdLoop.render 2).head ∧
    (clockFwdLoop.render 2).head ≤ clockFwdLoop.endTime ∧
    ((clockFwdLoop.render 2).head =
        clockFwdLoop.head + 2 * clockFwdLoop.direction ∨
     (clockFwdLoop.render 2).head =
        clockFwdLoop.head + 2 * clockFwdLoop.direction +
          clockFwdLoop.duration ∨
     (clockFwdLoop.render 2).head =
        clockFwdLoop.head + 2 * clockFwdLoop.direction -
          clockFwdLoop.duration) :=
  c7_loop_wrap_once.2 clockFwdLoop 2 rfl
    (by norm_num [clockFwdLoop, clockFwdNoLoop])
    (by norm_num [clockFwdLoop, clockFwdNoLoop])
    (by norm_num [clockFwdLoop, clockFwdNoLoop])
    (by norm_num [clockFwdLoop, clockFwdNoLoop])

/-! ### C10 -/

/-- C10: whenever `render` crosses a boundary with looping disabled — in
either direction — the trailing `stop()` leaves `direction == 0` and
`head == start` (overwriting the forward branch's `head = duration`
assignment); on the indexed clock the backward case sets `index = 0` and
the forward case sets `index = len(series) - 1`. -/
theorem c10_nonloop_boundary_stops_at_start :
    (∀ (t : Timeline) (delta_t : ℚ),
      t.loopEnabled = false → t.direction ≠ 0 →
      t.head + delta_t * t.direction < t.startTime →
      (t.render delta_t).direction = 0 ∧
      (t.render delta_t).head = t.startTime) ∧
    (∀ (t : Timeline) (delta_t : ℚ),
      t.loopEnabled = false → t.direction ≠ 0 → t.startTime ≤ t.endTime →
      t.head + delta_t * t.direction > t.endTime →
      (t.render delta_t).direction = 0 ∧
      (t.render delta_t).head = t.startTime) ∧
    (∀ (t : TimelineWithSeries) (delta_t : ℚ),
      t.loopEnabled = false → t.direction ≠ 0 →
      t.head + delta_t * t.direction < t.startTime →
      (t.render delta_t).direction = 0 ∧
      (t.render delta_t).head = t.startTime ∧
      (t.render delta_t).index = 0) ∧
    (∀ (t : TimelineWithSeries) (delta_t : ℚ),
      t.loopEnabled = false → t.direction ≠ 0 → t.startTime ≤ t.endTime →
      t.head + delta_t * t.direction > t.endTime →
      (t.render delta_t).direction = 0 ∧
      (t.render delta_t).head = t.startTime ∧
      (t.render delta_t).index = (t.series.length : ℤ) - 1) := by
  refine ⟨?_, ?_, ?_, ?_⟩
  · intro t delta_t hloop hdir hlt
    simp [Timeline.render, if_neg hdir, hloop, hlt, Timeline.stop,
      Timeline.pause]
  · intro t delta_t hloop hdir hse hgt
    have hnlt : ¬ (t.head + delta_t * t.direction < t.startTime) := by
      linarith
    simp [Timeline.render, if_neg hdir, hloop, hnlt, hgt, Timeline.stop,
      Timeline.pause]
  · intro t delta_t hloop hdir hlt
    simp [TimelineWithSeries.render, if_neg hdir, hloop, hlt,
      TimelineWithSeries.stop, TimelineWithSeries.pause]
  · intro t delta_t hloop hdir hse hgt
    have hnlt : ¬ (t.head + delta_t * t.direction < t.startTime) := by
      linarith
    simp [TimelineWithSeries.render, if_neg hdir, hloop, hnlt, hgt,
      TimelineWithSeries.stop, TimelineWithSeries.pause]

/-- Witness for C10: the forward non-looping cases at concrete clocks
(continuous `clockFwdNoLoop` with `delta_t=2`; indexed `tl10Fwd` with
`delta_t=100`). -/
theorem c10_witness :
    ((clockFwdNoLoop.render 2).direction = 0 ∧
      (clockFwdNoLoop.render 2).head = clockFwdNoLoop.startTime) ∧
    ((tl10Fwd.render 100).direction = 0 ∧
      (tl10Fwd.render 100).head = tl10Fwd.startTime ∧
      (tl10Fwd.render 100).index = (tl10Fwd.series.length : ℤ) - 1) :=
  ⟨c10_nonloop_boundary_stops_at_start.2.1 clockFwdNoLoop 2 rfl
      (by norm_num [clockFwdNoLoop]) (by norm_num [clockFwdNoLoop])
      (by norm_num [clockFwdNoLoop]),
   c10_nonloop_boundary_stops_at_start.2.2.2 tl10Fwd 100 rfl
      (by norm_num [tl10Fwd, tl10]) (by norm_num [tl10Fwd, tl10])
      (by norm_num [tl10Fwd, tl10])⟩

/-! ### C4 -/

/-- Uniform shifts commute with the first element of a non-empty list. -/
lemma headD_map_add (c : ℚ) (l : List ℚ) (h : l ≠ []) :
    (l.map (· + c)).headD 0 = l.headD 0 + c := by
  cases l with
  | nil => exact absurd rfl h
  | cons a as => rfl

/-- Uniform shifts commute with the last element of a non-empty list. -/
lemma getLastD_map_add (c : ℚ) (l : List ℚ) (h : l ≠ []) :
    (l.map (· + c)).getLastD 0 = l.getLastD 0 + c := by
  rw [List.getLastD_eq_getLast?, List.getLastD_eq_getLast?, List.getLast?_map]
  cases hc : l.getLast? with
  | none => exact absurd (List.getLast?_eq_none_iff.mp hc) h
  | some x => simp

/-- `render` touches only `head` and `direction` on the continuous clock. -/
lemma render_fields_continuous (t : Timeline) (delta_t : ℚ) :
    (t.render delta_t).startTime = t.startTime ∧
    (t.render delta_t).endTime = t.endTime ∧
    (t.render delta_t).duration = t.duration ∧
    (t.render delta_t).loopEnabled = t.loopEnabled := by
  by_cases hdir : t.direction = 0
  · simp [Timeline.render, hdir]
  · simp only [Timeline.render, if_neg hdir]
    split_ifs <;> simp [Timeline.stop, Timeline.pause]

/-- `render` touches only `head`, `index` and `direction` on the indexed
clock. -/
lemma render_fields_indexed (t : TimelineWithSeries)
    (delta_t : ℚ) :
    (t.render delta_t).series = t.series ∧
    (t.render delta_t).startTime = t.startTime ∧
    (t.render delta_t).endTime = t.endTime ∧
    (t.render delta_t).duration = t.duration := by
  by_cases hdir : t.direction = 0
  · simp [TimelineWithSeries.render, hdir]
  · simp only [TimelineWithSeries.render, if_neg hdir]
    split_ifs <;>
      simp [TimelineWithSeries.stop, TimelineWithSeries.pause]

/-- C4: every public operation of both clock kinds preserves
`end - start == duration` (for the indexed clock this is part of the
well-formedness invariant that construction establishes and all
operations preserve). -/
theorem c4_end_start_duration_consistency :
    (∀ (s d : ℚ) (l : Bool) (t : Timeline), Timeline.init s d l = .ok t →
      t.endTime - t.startTime = t.duration) ∧
    (∀ (t : Timeline) (v : ℚ),
      (t.setStart v).endTime - (t.setStart v).startTime =
        (t.setStart v).duration) ∧
    (∀ (t : Timeline) (v : ℚ) (t' : Timeline), t.setEnd v = .ok t' →
      t'.endTime - t'.startTime = t'.duration) ∧
    (∀ (t : Timeline) (v : ℚ) (t' : Timeline), t.setDuration v = .ok t' →
      t'.endTime - t'.startTime = t'.duration) ∧
    (∀ (t : Timeline) (d ts delta_t : ℚ),
      t.endTime - t.startTime = t.duration →
      (t.play d).endTime - (t.play d).startTime = (t.play d).duration ∧
      t.pause.endTime - t.pause.startTime = t.pause.duration ∧
      t.stop.endTime - t.stop.startTime = t.stop.duration ∧
      t.loop.endTime - t.loop.startTime = t.loop.duration ∧
      (t.set ts).endTime - (t.set ts).startTime = (t.set ts).duration ∧
      (t.render delta_t).endTime - (t.render delta_t).startTime =
        (t.render delta_t).duration) ∧
    (∀ (s : List ℚ) (l : Bool) (t : TimelineWithSeries),
      TimelineWithSeries.init s l = .ok t → t.wellFormed) ∧
    (∀ (t : TimelineWithSeries) (v : ℚ), t.wellFormed →
      (t.setStart v).wellFormed ∧ (t.setEnd v).wellFormed) ∧
    (∀ (t : TimelineWithSeries) (s : List ℚ), s ≠ [] →
      (t.setSeries s).wellFormed) ∧
    (∀ (t : TimelineWithSeries) (d ts delta_t : ℚ), t.wellFormed →
      (t.play d).wellFormed ∧ t.pause.wellFormed ∧ t.stop.wellFormed ∧
      t.loop.wellFormed ∧ (t.set ts).wellFormed ∧
      (t.render delta_t).wellFormed) ∧
    (∀ (t : TimelineWithSeries), t.wellFormed →
      t.endTime - t.startTime = t.duration) := by
  refine ⟨?_, ?_, ?_, ?_, ?_, ?_, ?_, ?_, ?_, ?_⟩
  · intro s d l t h
    by_cases hd : d < 0
    · simp [Timeline.init, Timeline.validDuration, hd] at h
    · simp [Timeline.init, Timeline.validDuration, hd] at h
      subst h
      ring
  · intro t v
    simp only [Timeline.setStart]
    ring
  · intro t v t' h
    by_cases hv : v ≤ t.startTime
    · simp [Timeline.setEnd, Timeline.validEndTime, hv] at h
    · simp [Timeline.setEnd, Timeline.validEndTime, hv] at h
      subst h
      ring
  · intro t v t' h
    by_cases hv : v < 0
    · simp [Timeline.setDuration, Timeline.validDuration, hv] at h
    · simp [Timeline.setDuration, Timeline.validDuration, hv] at h
      subst h
      ring
  · intro t d ts delta_t h
    obtain ⟨h1, h2, h3, _⟩ := render_fields_continuous t delta_t
    refine ⟨h, h, h, h, h, ?_⟩
    rw [h1, h2, h3]
    exact h
  · intro s l t h
    cases s with
    | nil => simp [TimelineWithSeries.init] at h
    | cons a rest =>
      simp only [TimelineWithSeries.init] at h
      by_cases hd : (a :: rest).getLastD 0 - a < 0
      · rw [if_pos hd] at h
        exact absurd h (by simp)
      · rw [if_neg hd] at h
        simp only [Except.ok.injEq] at h
        subst h
        refine ⟨by simp, rfl, by ring, by ring⟩
  · intro t v hwf
    obtain ⟨hne, hst, hen, heq⟩ := hwf
    constructor
    · refine ⟨by simp [TimelineWithSeries.setStart, List.map_eq_nil_iff, hne],
        rfl, rfl, ?_⟩
      show (t.series.map (· + (v - t.series.headD 0))).getLastD 0 -
          (t.series.map (· + (v - t.series.headD 0))).headD 0 = t.duration
      rw [getLastD_map_add _ _ hne, headD_map_add _ _ hne]
      rw [hst, hen] at heq
      linarith
    · refine ⟨by simp [TimelineWithSeries.setEnd, List.map_eq_nil_iff, hne],
        rfl, rfl, ?_⟩
      show (t.series.map (· + (v - t.series.getLastD 0))).getLastD 0 -
          (t.series.map (· + (v - t.series.getLastD 0))).headD 0 = t.duration
      rw [getLastD_map_add _ _ hne, headD_map_add _ _ hne]
      rw [hst, hen] at heq
      linarith
  · intro t s hs
    exact ⟨hs, rfl, rfl, rfl⟩
  · intro t d ts delta_t hwf
    obtain ⟨hne, hst, hen, heq⟩ := hwf
    obtain ⟨r1, r2, r3, r4⟩ := render_fields_indexed t delta_t
    refine ⟨⟨hne, hst, hen, heq⟩, ⟨hne, hst, hen, heq⟩, ⟨hne, hst, hen, heq⟩,
      ⟨hne, hst, hen, heq⟩, ⟨hne, hst, hen, heq⟩, ?_⟩
    rw [TimelineWithSeries.wellFormed, r1, r2, r3, r4]
    exact ⟨hne, hst, hen, heq⟩
  · intro t hwf
    exact hwf.2.2.2

/-- Witness for C4: the consistency facts instantiated on the concrete
indexed clock `tl10` (which is well-formed) and on a concrete continuous
construction. -/
theorem c4_witness :
    tl10.wellFormed ∧ (tl10.setStart 2).wellFormed ∧
    ((0 : ℚ) + 10 - 0 = (10 : ℚ)) := by
  have hwf : tl10.wellFormed := by
    refine ⟨by simp [tl10, series10], ?_, ?_, ?_⟩ <;>
      norm_num [tl10, series10]
  refine ⟨hwf, (c4_end_start_duration_consistency.2.2.2.2.2.2.1 tl10 2
    hwf).1, by norm_num⟩

/-! ### C3 -/

/-- C3 counterexample: the state reached from `Timeline(0, 10)` by the
public operations `set(5); start = 6` has `head == 5 < start == 6`, so
`start <= head <= end` does NOT hold on exit of every public operation
(the `start` setter never reclamps `head`). -/
theorem c3_cex_start_setter_breaks_range :
    Timeline.init 0 10 true = .ok clockStart10 ∧
    ¬ ((clockStart10.set 5).setStart 6).headInRange := by
  constructor
  · norm_num [Timeline.init, Timeline.validDuration, clockStart10]
  · intro h
    have := h.1
    norm_num [Timeline.set, Timeline.setStart, Timeline.headInRange,
      clockStart10] at this

/-- C3 (amended): `start <= head <= end` holds after construction of either
clock kind and is preserved by `play`, `pause`, `stop`, `loop`, the
continuous `set`, and by `render` whenever looping is off or the per-tick
displacement is at most one `duration`; it is NOT preserved by the
`start`/`end` setters (no reclamp of `head`) or the indexed `set`
(no clamp at all). -/
theorem c3_amended_head_range_preservation :
    (∀ (s d : ℚ) (l : Bool) (t : Timeline), Timeline.init s d l = .ok t →
      t.headInRange) ∧
    (∀ (t : Timeline), t.headInRange →
      ∀ (d ts : ℚ), (t.play d).headInRange ∧ t.pause.headInRange ∧
        t.stop.headInRange ∧ t.loop.headInRange ∧
        (t.set ts).headInRange) ∧
    (∀ (t : Timeline) (delta_t : ℚ), t.headInRange →
      t.endTime - t.startTime = t.duration →
      (t.loopEnabled = true → |delta_t * t.direction| ≤ t.duration) →
      (t.render delta_t).headInRange) ∧
    (∀ (s : List ℚ) (l : Bool) (t : TimelineWithSeries),
      TimelineWithSeries.init s l = .ok t → t.headInRange) ∧
    (∀ (t : TimelineWithSeries), t.headInRange →
      ∀ (d : ℚ), (t.play d).headInRange ∧ t.pause.headInRange ∧
        t.stop.headInRange ∧ t.loop.headInRange) ∧
    (∀ (t : TimelineWithSeries) (delta_t : ℚ), t.headInRange →
      t.endTime - t.startTime = t.duration →
      (t.loopEnabled = true → |delta_t * t.direction| ≤ t.duration) →
      (t.render delta_t).headInRange) := by
  refine ⟨?_, ?_, ?_, ?_, ?_, ?_⟩
  · intro s d l t h
    by_cases hd : d < 0
    · simp [Timeline.init, Timeline.validDuration, hd] at h
    · simp [Timeline.init, Timeline.validDuration, hd] at h
      subst h
      refine ⟨le_refl _, ?_⟩
      show s ≤ s + d
      linarith [not_lt.1 hd]
  · intro t ht d ts
    obtain ⟨h1, h2⟩ := ht
    have hse : t.startTime ≤ t.endTime := le_trans h1 h2
    refine ⟨⟨h1, h2⟩, ⟨h1, h2⟩, ⟨le_refl _, hse⟩, ⟨h1, h2⟩, ?_⟩
    exact ⟨le_max_left _ _, max_le hse (min_le_right _ _)⟩
  · intro t delta_t ht heq hbound
    obtain ⟨h1, h2⟩ := ht
    have hse : t.startTime ≤ t.endTime := le_trans h1 h2
    by_cases hdir : t.direction = 0
    · simpa [Timeline.render, hdir] using And.intro h1 h2
    · simp only [Timeline.render, if_neg hdir]
      split_ifs with hlt hl hgt hl
      · have hd := abs_le.1 (hbound hl)
        exact ⟨by show t.startTime ≤ _ + _; linarith [hd.1],
          by show _ + _ ≤ t.endTime; linarith⟩
      · exact ⟨le_refl _, hse⟩
      · have hd := abs_le.1 (hbound hl)
        exact ⟨by show t.startTime ≤ _ - _; linarith,
          by show _ - _ ≤ t.endTime; linarith [hd.2]⟩
      · exact ⟨le_refl _, hse⟩
      · exact ⟨by show t.startTime ≤ t.head + delta_t * t.direction; linarith,
          by show t.head + delta_t * t.direction ≤ t.endTime; linarith⟩
  · intro s l t h
    cases s with
    | nil => simp [TimelineWithSeries.init] at h
    | cons a rest =>
      simp only [TimelineWithSeries.init] at h
      by_cases hd : (a :: rest).getLastD 0 - a < 0
      · rw [if_pos hd] at h
        exact absurd h (by simp)
      · rw [if_neg hd] at h
        simp only [Except.ok.injEq] at h
        subst h
        refine ⟨le_refl _, ?_⟩
        show a ≤ a + ((a :: rest).getLastD 0 - a)
        linarith [not_lt.1 hd]
  · intro t ht d
    obtain ⟨h1, h2⟩ := ht
    have hse : t.startTime ≤ t.endTime := le_trans h1 h2
    exact ⟨⟨h1, h2⟩, ⟨h1, h2⟩, ⟨le_refl _, hse⟩, ⟨h1, h2⟩⟩
  · intro t delta_t ht heq hbound
    obtain ⟨h1, h2⟩ := ht
    have hse : t.startTime ≤ t.endTime := le_trans h1 h2
    by_cases hdir : t.direction = 0
    · simpa [TimelineWithSeries.render, hdir] using And.intro h1 h2
    · simp only [TimelineWithSeries.render, if_neg hdir]
      split_ifs with hlt hl hgt hl
      · have hd := abs_le.1 (hbound hl)
        exact ⟨by show t.startTime ≤ _ + _; linarith [hd.1],
          by show _ + _ ≤ t.endTime; linarith⟩
      · exact ⟨le_refl _, hse⟩
      · have hd := abs_le.1 (hbound hl)
        exact ⟨by show t.startTime ≤ _ - _; linarith,
          by show _ - _ ≤ t.endTime; linarith [hd.2]⟩
      · exact ⟨le_refl _, hse⟩
      · exact ⟨by show t.startTime ≤ t.head + delta_t * t.direction; linarith,
          by show t.head + delta_t * t.direction ≤ t.endTime; linarith⟩

/-- Witness for C3's amended statement: preservation applied to the
concrete clock `clockStart10` (construction, a `set`, and a looped
`render` within one period). -/
theorem c3_witness :
    clockStart10.headInRange ∧ (clockStart10.set 5).headInRange ∧
    (clockStart10.render 2).headInRange :=
  have h0 : clockStart10.headInRange := by
    norm_num [Timeline.headInRange, clockStart10]
  ⟨h0,
   (c3_amended_head_range_preservation.2.1 clockStart10 h0 0 5).2.2.2.2,
   c3_amended_head_range_preservation.2.2.1 clockStart10 2 h0
     (by norm_num [clockStart10])
     (by intro _; norm_num [clockStart10])⟩
